import Mathlib

/-
  Shallow embedding of the sharded sqlite analytics driver
  (package sqlite: Query / GroupBy / Series / Insert over monthly shards,
  with an LRU result cache keyed by a normalized request URL).

  Machine integers of the source are modelled as Int (no arithmetic in the
  claims approaches 2^63).  The per-shard SQL executor, the connection
  manager and the directory listing are external collaborators: they enter
  the model as oracle fields of `Env`.  Side effects (cache get/add,
  connection acquisition, locking, executor calls) are made observable as an
  event trace.
-/

namespace Sqlite

/-- A Go `time.Time`, restricted to the fields the driver inspects:
the year and month (used by `Format "2006-01"` / `Format "200601"`),
plus a residue `rest` standing for all finer fields, so that equality
with the zero time `time.Time{}` (= 0001-01-01 00:00:00) is faithful. -/
structure GoTime where
  year : Nat
  month : Nat
  rest : Nat
deriving DecidableEq, Repr

/-- The Go zero time `time.Time{}`. -/
def zeroTime : GoTime := ⟨1, 1, 0⟩

/-- Decimal rendering of a natural, left-padded with zeros to width `w`,
as Go's reference-layout formatting does for "2006" (w = 4) and "01"/"06"
(w = 2). -/
def padNat (w n : Nat) : String :=
  let s := toString n
  String.mk (List.replicate (w - s.length) '0') ++ s

/-- timeToShardName: `t.Format("2006-01")`, e.g. 2015-12-08T00:00:00Z -> "2015-12". -/
def timeToShardName (t : GoTime) : String :=
  padNat 4 t.year ++ "-" ++ padNat 2 t.month

/-- `t.Format("200601")`, the layout used by timeRangeToInt. -/
def formatYYYYMM (t : GoTime) : String :=
  padNat 4 t.year ++ padNat 2 t.month

def digitVal (c : Char) : Option Nat :=
  if c.isDigit then some (c.toNat - 48) else none

def atoiCore : List Char → Nat → Option Nat
  | [], acc => some acc
  | c :: rest, acc =>
    match digitVal c with
    | some d => atoiCore rest (acc * 10 + d)
    | none => none

/-- Go `strconv.Atoi`: optional sign, then decimal digits; empty or
non-numeric input is an error (`none`). -/
def atoi (s : String) : Option Int :=
  match s.toList with
  | [] => none
  | '-' :: rest =>
    if rest.isEmpty then none else (atoiCore rest 0).map (fun n => -(n : Int))
  | '+' :: rest =>
    if rest.isEmpty then none else (atoiCore rest 0).map (fun n => (n : Int))
  | cs => (atoiCore cs 0).map (fun n => (n : Int))

/-- shardNameToInt: split the name on "-", join the parts, Atoi the result;
"2015-12" -> 201512.  Splitting on "-" and joining is exactly removal of
every '-' character. -/
def shardNameToInt (shardName : String) : Option Int :=
  atoi (String.mk (shardName.toList.filter (fun c => c ≠ '-')))

/-- A `*database.TimeRange`: optional start/end instants. -/
structure TimeRange where
  Start : GoTime
  End : GoTime
deriving DecidableEq, Repr

/-- timeRangeToInt: start and end of the range as YYYYMM integers;
a nil range or zero bound defaults to 0 (start) / 999999 (end), and a
formatting/Atoi failure falls back to the same defaults. -/
def timeRangeToInt (timeRange : Option TimeRange) : Int × Int :=
  match timeRange with
  | none => (0, 999999)
  | some tr =>
    let startInt := if tr.Start = zeroTime then 0 else (atoi (formatYYYYMM tr.Start)).getD 0
    let endInt := if tr.End = zeroTime then 999999 else (atoi (formatYYYYMM tr.End)).getD 999999
    (startInt, endInt)

end Sqlite

namespace Sqlite

/-! URL query values (`net/url.Values`), as an association list from key to
the list of values; Go's `Encode` sorts keys, so ordering of the list is
canonicalized only at encoding time, matching the unordered Go map. -/

abbrev Values := List (String × List String)

/-- `Values.Get`: first value associated with the key, or "" when absent. -/
def Values.get (q : Values) (k : String) : String :=
  match q.find? (fun p => p.1 = k) with
  | some (_, v :: _) => v
  | _ => ""

/-- `Values.Del`: remove every entry for the key. -/
def Values.del (q : Values) (k : String) : Values :=
  q.filter (fun p => ¬ p.1 = k)

/-- `Values.Add`: append a value to the key's slice, creating the key if absent. -/
def Values.add (q : Values) (k v : String) : Values :=
  if q.any (fun p => p.1 = k) then
    q.map (fun p => if p.1 = k then (p.1, p.2 ++ [v]) else p)
  else
    q ++ [(k, [v])]

/-- Whether any entry for the key exists. -/
def Values.hasKey (q : Values) (k : String) : Bool :=
  q.any (fun p => p.1 = k)

/-- Strict lexicographic byte order on strings (the order Go's
`sort.Strings` uses on the ASCII keys involved here). -/
def strLt : List Char → List Char → Bool
  | [], [] => false
  | [], _ :: _ => true
  | _ :: _, [] => false
  | a :: as, b :: bs =>
    if a.toNat < b.toNat then true
    else if b.toNat < a.toNat then false
    else strLt as bs

def insertSorted (p : String × List String) : Values → Values
  | [] => [p]
  | q :: rest => if strLt q.1.toList p.1.toList then q :: insertSorted p rest else p :: q :: rest

/-- Sort entries by key (Go's `Encode` sorts the map keys). -/
def sortValues : Values → Values
  | [] => []
  | p :: rest => insertSorted p (sortValues rest)

/-- `Values.Encode`: keys in sorted order, each value in slice order, as
"k=v" pairs joined with "&".  (Percent-escaping is omitted: no claim
depends on it and every concrete instance below is escape-free.) -/
def Values.encode (q : Values) : String :=
  String.intercalate "&" (((sortValues q).map (fun p => p.2.map (fun v => p.1 ++ "=" ++ v))).flatten)

/-- A request URL: everything before the query string, plus the parsed query. -/
structure URL where
  base : String
  query : Values
deriving DecidableEq, Repr

/-- `URL.String` after `RawQuery` is replaced by the encoded values. -/
def urlString (u : URL) (q : Values) : String :=
  u.base ++ "?" ++ Values.encode q

/-- cachedRequest: true iff the URL carries a non-empty "cache" query parameter. -/
def cachedRequest (u : URL) : Bool :=
  decide (0 < (Values.get u.query "cache").length)

/-- The query-parameter transformation inside formatURLForCache:
drop "start" when the requested start is before the shard, drop "end" when
the requested end is after the shard, drop "cache" for shards strictly
before the current month, then add "shard" = shard integer.  Fails when the
current month's shard label does not parse back to an integer. -/
def formatValuesForCache (q0 : Values) (shardName startMonth endMonth : Int)
    (now : GoTime) : Option Values :=
  let q1 := if startMonth < shardName then q0.del "start" else q0
  let q2 := if endMonth > shardName then q1.del "end" else q1
  match shardNameToInt (timeToShardName now) with
  | none => none
  | some currentMonth =>
    let q3 := if shardName < currentMonth then q2.del "cache" else q2
    some (q3.add "shard" (toString shardName))

/-- formatURLForCache: the normalized cache key for (request, shard);
`now` models the `time.Now()` read inside the function. -/
def formatURLForCache (u : URL) (shardName startMonth endMonth : Int)
    (now : GoTime) : Option String :=
  (formatValuesForCache u.query shardName startMonth endMonth now).map (urlString u)

end Sqlite

namespace Sqlite

/-- Modelled from the spec: an AnalyticRecord is a "timestamp plus opaque
dimensional fields; timestamp alone determines shard assignment on write"
(the `database.Analytic` struct itself is outside src/). -/
structure Analytic where
  Time : GoTime
  dimensions : String
deriving DecidableEq, Repr

/-- Modelled from the spec: `database.Analytics`, the flat record-list
result of Query. -/
structure Analytics where
  List : List Analytic
deriving DecidableEq, Repr

/-- Modelled from the spec: an AggregateBucket is a "(group id, total,
unique) triple" (`database.Aggregate` is outside src/). -/
structure Aggregate where
  Id : String
  Total : Int
  Unique : Int
deriving DecidableEq, Repr

/-- Modelled from the spec: `database.Aggregates`, the result of GroupBy. -/
structure Aggregates where
  List : List Aggregate
deriving DecidableEq, Repr

/-- Modelled from the spec: an Interval is a shard-local "time-bucketed
count", never merged across shards; its fields are opaque to this driver. -/
structure Interval where
  data : String
deriving DecidableEq, Repr

/-- Modelled from the spec: `database.Intervals`, the result of Series. -/
structure Intervals where
  List : List Interval
deriving DecidableEq, Repr

/-- A value stored in the LRU cache: in Go an `interface{}` holding a
pointer to one of the three result shapes, recovered by a type assertion. -/
inductive CacheVal
  | analytics (a : Analytics)
  | aggregates (a : Aggregates)
  | intervals (a : Intervals)
deriving DecidableEq, Repr

/-- The hashicorp golang-lru cache: fixed capacity, entries in
most-recently-used-first order. -/
structure Cache where
  capacity : Nat
  entries : List (String × CacheVal)
deriving DecidableEq, Repr

/-- `lru.Get`: look a key up; a hit refreshes the entry's recency. -/
def cacheGet (c : Cache) (k : String) : Option CacheVal × Cache :=
  match c.entries.find? (fun p => p.1 = k) with
  | some p => (some p.2, ⟨c.capacity, p :: c.entries.filter (fun q => ¬ q.1 = k)⟩)
  | none => (none, c)

/-- `lru.Add`: insert (replacing any entry for the same key), evicting the
least recently used entries beyond capacity. -/
def cacheAdd (c : Cache) (k : String) (v : CacheVal) : Cache :=
  ⟨c.capacity, ((k, v) :: c.entries.filter (fun q => ¬ q.1 = k)).take c.capacity⟩

/-- The driver's error values (`database/errors`), plus `parseErr` for the
raw `strconv` error that shardNameToInt propagates unwrapped. -/
inductive Err
  | InternalError
  | InvalidDatabaseName
  | InsertFailed
  | parseErr (input : String)
deriving DecidableEq, Repr

/-- `database.Params`: dataset name, original request URL, optional time
range, group property, series interval, uniqueness flag. -/
structure Params where
  DBName : String
  URL : URL
  TimeRange : Option TimeRange
  Property : String
  Interval : String
  Unique : Bool

/-- Observable side effects of one driver call, in order of occurrence. -/
inductive Event
  | cacheGetEv (key : String)
  | cacheAddEv (key : String)
  | getDBEv (shard : String)
  | lockEv (shard : String)
  | execEv (shard : String)
  | unlockEv (shard : String)
deriving DecidableEq, Repr

/-- The external collaborators of one driver call, as oracles:
the existence check and directory read for the dataset (`none` = the I/O
call itself failed), the connection manager (`getDB db shard` = acquisition
succeeds), the wall clock read by formatURLForCache, and the per-shape
query executors (`none`/`false` = execution error). -/
structure Env where
  dbExists : Option Bool
  dirRead : Option (List String)
  getDB : String → String → Bool
  now : GoTime
  execQuery : String → String → Option TimeRange → Option Analytics
  execGroupBy : String → String → String → Option TimeRange → Option Aggregates
  execGroupByUniq : String → String → String → Option TimeRange → Option Aggregates
  execSeries : String → String → String → Option TimeRange → Option Intervals
  execSeriesUniq : String → String → String → Option TimeRange → Option Intervals
  execInsert : String → String → Analytic → Bool

/-- listShards: read the dataset directory and return every entry's name;
a ReadDir error yields nil, indistinguishable from an empty directory. -/
def listShards (dirRead : Option (List String)) : List String :=
  match dirRead with
  | none => []
  | some folders => folders

/-- The per-shard loop of `Sharded.Query`, threading the row accumulator,
the cache, and the event trace. -/
def queryShards (env : Env) (params : Params) (cachedReq : Bool) :
    List String → List Analytic → Cache → List Event →
    (Option Analytics × Option Err) × Cache × List Event
  | [], acc, cache, evs => ((some ⟨acc⟩, none), cache, evs)
  | shardName :: rest, acc, cache, evs =>
    match shardNameToInt shardName with
    | none => ((none, some (.parseErr shardName)), cache, evs)
    | some shardInt =>
      let (startInt, endInt) := timeRangeToInt params.TimeRange
      if shardInt < startInt ∨ shardInt > endInt then
        queryShards env params cachedReq rest acc cache evs
      else
        match formatURLForCache params.URL shardInt startInt endInt env.now with
        | none => ((none, some (.parseErr (timeToShardName env.now))), cache, evs)
        | some cacheURL =>
          match cacheGet cache cacheURL with
          | (some v, cache1) =>
            match v with
            | .analytics a =>
              queryShards env params cachedReq rest (acc ++ a.List) cache1
                (evs ++ [.cacheGetEv cacheURL])
            | _ => ((none, some .InternalError), cache1, evs ++ [.cacheGetEv cacheURL])
          | (none, cache1) =>
            if env.getDB params.DBName shardName then
              match env.execQuery params.DBName shardName params.TimeRange with
              | none =>
                ((none, some .InternalError), cache1,
                  evs ++ [.cacheGetEv cacheURL, .getDBEv shardName,
                    .lockEv shardName, .execEv shardName, .unlockEv shardName])
              | some a =>
                queryShards env params cachedReq rest (acc ++ a.List)
                  (if cachedReq then cacheAdd cache1 cacheURL (.analytics a) else cache1)
                  (evs ++ [.cacheGetEv cacheURL, .getDBEv shardName,
                      .lockEv shardName, .execEv shardName, .unlockEv shardName] ++
                    (if cachedReq then [.cacheAddEv cacheURL] else []))
            else
              ((none, some .InternalError), cache1,
                evs ++ [.cacheGetEv cacheURL, .getDBEv shardName])

/-- `Sharded.Query`: dataset existence check, shard enumeration, then the
per-shard loop; returns the (result, error) pair, the cache after the call,
and the event trace. -/
def Query (env : Env) (params : Params) (cache : Cache) :
    (Option Analytics × Option Err) × Cache × List Event :=
  match env.dbExists with
  | none => ((none, some .InternalError), cache, [])
  | some false => ((none, some .InvalidDatabaseName), cache, [])
  | some true =>
    queryShards env params (cachedRequest params.URL) (listShards env.dirRead) [] cache []

end Sqlite

namespace Sqlite

/-- Go map lookup `analyticsMap[id]` over the association-list model. -/
def lookupAgg : List (String × Aggregate) → String → Option Aggregate
  | [], _ => none
  | (k, v) :: rest, id => if k = id then some v else lookupAgg rest id

/-- Go map assignment `analyticsMap[k] = v` over the association-list model. -/
def setAgg : List (String × Aggregate) → String → Aggregate → List (String × Aggregate)
  | [], k, v => [(k, v)]
  | (k1, v1) :: rest, k, v =>
    if k1 = k then (k1, v) :: rest else (k1, v1) :: setAgg rest k v

/-- One step of the GroupBy merge loop: add one per-shard aggregate into
the id-keyed map, summing Total and Unique when the id is already present. -/
def mergeAggregate (m : List (String × Aggregate)) (analytic : Aggregate) :
    List (String × Aggregate) :=
  match lookupAgg m analytic.Id with
  | some total =>
    setAgg m analytic.Id ⟨total.Id, total.Total + analytic.Total, total.Unique + analytic.Unique⟩
  | none => setAgg m analytic.Id analytic

/-- The whole GroupBy merge: fold every per-shard aggregate list, in shard
order, into the id-keyed map. -/
def mergeShards (shardResults : List (List Aggregate)) : List (String × Aggregate) :=
  shardResults.foldl (fun m l => l.foldl mergeAggregate m) []

/-- The per-shard loop of `Sharded.GroupBy`, threading the id-keyed
accumulator map, the cache, and the event trace. -/
def groupByShards (env : Env) (params : Params) (cachedReq : Bool) :
    List String → List (String × Aggregate) → Cache → List Event →
    (Option Aggregates × Option Err) × Cache × List Event
  | [], acc, cache, evs => ((some ⟨acc.map (fun p => p.2)⟩, none), cache, evs)
  | shardName :: rest, acc, cache, evs =>
    match shardNameToInt shardName with
    | none => ((none, some (.parseErr shardName)), cache, evs)
    | some shardInt =>
      let (startInt, endInt) := timeRangeToInt params.TimeRange
      if shardInt < startInt ∨ shardInt > endInt then
        groupByShards env params cachedReq rest acc cache evs
      else
        match formatURLForCache params.URL shardInt startInt endInt env.now with
        | none => ((none, some (.parseErr (timeToShardName env.now))), cache, evs)
        | some cacheURL =>
          match cacheGet cache cacheURL with
          | (some v, cache1) =>
            match v with
            | .aggregates a =>
              groupByShards env params cachedReq rest (a.List.foldl mergeAggregate acc) cache1
                (evs ++ [.cacheGetEv cacheURL])
            | _ => ((none, some .InternalError), cache1, evs ++ [.cacheGetEv cacheURL])
          | (none, cache1) =>
            if env.getDB params.DBName shardName then
              match (if params.Unique then
                  env.execGroupByUniq params.DBName shardName params.Property params.TimeRange
                else
                  env.execGroupBy params.DBName shardName params.Property params.TimeRange) with
              | none =>
                ((none, some .InternalError), cache1,
                  evs ++ [.cacheGetEv cacheURL, .getDBEv shardName,
                    .lockEv shardName, .execEv shardName, .unlockEv shardName])
              | some a =>
                groupByShards env params cachedReq rest (a.List.foldl mergeAggregate acc)
                  (if cachedReq then cacheAdd cache1 cacheURL (.aggregates a) else cache1)
                  (evs ++ [.cacheGetEv cacheURL, .getDBEv shardName,
                      .lockEv shardName, .execEv shardName, .unlockEv shardName] ++
                    (if cachedReq then [.cacheAddEv cacheURL] else []))
            else
              ((none, some .InternalError), cache1,
                evs ++ [.cacheGetEv cacheURL, .getDBEv shardName])

/-- `Sharded.GroupBy`: both the unique and the non-unique executor run
between lock() and unlock(); the final map-to-list conversion follows the
accumulator's insertion order (the source's map iteration order is
unspecified). -/
def GroupBy (env : Env) (params : Params) (cache : Cache) :
    (Option Aggregates × Option Err) × Cache × List Event :=
  match env.dbExists with
  | none => ((none, some .InternalError), cache, [])
  | some false => ((none, some .InvalidDatabaseName), cache, [])
  | some true =>
    groupByShards env params (cachedRequest params.URL) (listShards env.dirRead) [] cache []

/-- The per-shard loop of `Sharded.Series`.  On a cache miss the unique
path runs the executor between lock() and unlock(), while the non-unique
path calls the executor with no locking at all. -/
def seriesShards (env : Env) (params : Params) (cachedReq : Bool) :
    List String → List Interval → Cache → List Event →
    (Option Intervals × Option Err) × Cache × List Event
  | [], acc, cache, evs => ((some ⟨acc⟩, none), cache, evs)
  | shardName :: rest, acc, cache, evs =>
    match shardNameToInt shardName with
    | none => ((none, some (.parseErr shardName)), cache, evs)
    | some shardInt =>
      let (startInt, endInt) := timeRangeToInt params.TimeRange
      if shardInt < startInt ∨ shardInt > endInt then
        seriesShards env params cachedReq rest acc cache evs
      else
        match formatURLForCache params.URL shardInt startInt endInt env.now with
        | none => ((none, some (.parseErr (timeToShardName env.now))), cache, evs)
        | some cacheURL =>
          match cacheGet cache cacheURL with
          | (some v, cache1) =>
            match v with
            | .intervals a =>
              seriesShards env params cachedReq rest (acc ++ a.List) cache1
                (evs ++ [.cacheGetEv cacheURL])
            | _ => ((none, some .InternalError), cache1, evs ++ [.cacheGetEv cacheURL])
          | (none, cache1) =>
            if env.getDB params.DBName shardName then
              if params.Unique then
                match env.execSeriesUniq params.DBName shardName params.Interval params.TimeRange with
                | none =>
                  ((none, some .InternalError), cache1,
                    evs ++ [.cacheGetEv cacheURL, .getDBEv shardName,
                      .lockEv shardName, .execEv shardName, .unlockEv shardName])
                | some a =>
                  seriesShards env params cachedReq rest (acc ++ a.List)
                    (if cachedReq then cacheAdd cache1 cacheURL (.intervals a) else cache1)
                    (evs ++ [.cacheGetEv cacheURL, .getDBEv shardName,
                        .lockEv shardName, .execEv shardName, .unlockEv shardName] ++
                      (if cachedReq then [.cacheAddEv cacheURL] else []))
              else
                match env.execSeries params.DBName shardName params.Interval params.TimeRange with
                | none =>
                  ((none, some .InternalError), cache1,
                    evs ++ [.cacheGetEv cacheURL, .getDBEv shardName, .execEv shardName])
                | some a =>
                  seriesShards env params cachedReq rest (acc ++ a.List)
                    (if cachedReq then cacheAdd cache1 cacheURL (.intervals a) else cache1)
                    (evs ++ [.cacheGetEv cacheURL, .getDBEv shardName, .execEv shardName] ++
                      (if cachedReq then [.cacheAddEv cacheURL] else []))
            else
              ((none, some .InternalError), cache1,
                evs ++ [.cacheGetEv cacheURL, .getDBEv shardName])

/-- `Sharded.Series`: existence check, shard enumeration, per-shard loop. -/
def Series (env : Env) (params : Params) (cache : Cache) :
    (Option Intervals × Option Err) × Cache × List Event :=
  match env.dbExists with
  | none => ((none, some .InternalError), cache, [])
  | some false => ((none, some .InvalidDatabaseName), cache, [])
  | some true =>
    seriesShards env params (cachedRequest params.URL) (listShards env.dirRead) [] cache []

/-- `Sharded.Insert`: the target shard is `timeToShardName(analytic.Time)`;
connection acquisition failure is InternalError, executor failure (after
lock-execute-unlock) is InsertFailed.  No dataset existence check occurs. -/
def Insert (env : Env) (params : Params) (analytic : Analytic) :
    Option Err × List Event :=
  let shardName := timeToShardName analytic.Time
  if env.getDB params.DBName shardName then
    if env.execInsert params.DBName shardName analytic then
      (none, [.getDBEv shardName, .lockEv shardName, .execEv shardName, .unlockEv shardName])
    else
      (some .InsertFailed,
        [.getDBEv shardName, .lockEv shardName, .execEv shardName, .unlockEv shardName])
  else
    (some .InternalError, [.getDBEv shardName])

/-- States of the lock-discipline automaton for one event trace. -/
inductive LockSt
  | outside
  | locked (shard : String)
  | execed (shard : String)
deriving DecidableEq, Repr

/-- One automaton step: an executor event is legal only strictly between a
lock and an unlock of the same shard; `none` = discipline violated. -/
def lockStep : LockSt → Event → Option LockSt
  | .outside, .lockEv s => some (.locked s)
  | .outside, .execEv _ => none
  | .outside, .unlockEv _ => none
  | .outside, _ => some .outside
  | .locked s, .execEv s1 => if s = s1 then some (.execed s) else none
  | .locked _, _ => none
  | .execed s, .unlockEv s1 => if s = s1 then some .outside else none
  | .execed _, _ => none

/-- Run the automaton over a trace from a given state. -/
def runLock (t : List Event) (st : Option LockSt) : Option LockSt :=
  t.foldl (fun acc e => acc.bind (fun s => lockStep s e)) st

/-- A trace is well locked when every executor event sits between a lock
and an unlock of its own shard, with no dangling lock. -/
def wellLocked (t : List Event) : Bool :=
  runLock t (some .outside) = some .outside

/-- A trace acquires no shard lock at all. -/
def lockFree (t : List Event) : Bool :=
  t.all (fun e => match e with
    | .lockEv _ => false
    | .unlockEv _ => false
    | _ => true)

end Sqlite

namespace Sqlite

theorem queryShards_nil (env : Env) (p : Params) (cr : Bool) (acc : List Analytic)
    (cache : Cache) (evs : List Event) :
    queryShards env p cr [] acc cache evs = ((some ⟨acc⟩, none), cache, evs) := rfl

theorem queryShards_skip (env : Env) (p : Params) (cr : Bool) (s : String) (rest : List String)
    (acc : List Analytic) (cache : Cache) (evs : List Event) (i st en : Int)
    (hparse : shardNameToInt s = some i)
    (htr : timeRangeToInt p.TimeRange = (st, en))
    (hrange : i < st ∨ i > en) :
    queryShards env p cr (s :: rest) acc cache evs = queryShards env p cr rest acc cache evs := by
  simp only [queryShards, hparse, htr, hrange, if_pos]

theorem queryShards_hit (env : Env) (p : Params) (cr : Bool) (s : String) (rest : List String)
    (acc : List Analytic) (cache cache1 : Cache) (evs : List Event) (i st en : Int) (k : String)
    (a : Analytics)
    (hparse : shardNameToInt s = some i)
    (htr : timeRangeToInt p.TimeRange = (st, en))
    (hrange : ¬(i < st ∨ i > en))
    (hfmt : formatURLForCache p.URL i st en env.now = some k)
    (hget : cacheGet cache k = (some (.analytics a), cache1)) :
    queryShards env p cr (s :: rest) acc cache evs =
      queryShards env p cr rest (acc ++ a.List) cache1 (evs ++ [.cacheGetEv k]) := by
  simp only [queryShards, hparse, htr, hrange, if_neg, hfmt, hget, if_false]

theorem queryShards_miss (env : Env) (p : Params) (cr : Bool) (s : String) (rest : List String)
    (acc : List Analytic) (cache cache1 : Cache) (evs : List Event) (i st en : Int) (k : String)
    (a : Analytics)
    (hparse : shardNameToInt s = some i)
    (htr : timeRangeToInt p.TimeRange = (st, en))
    (hrange : ¬(i < st ∨ i > en))
    (hfmt : formatURLForCache p.URL i st en env.now = some k)
    (hget : cacheGet cache k = (none, cache1))
    (hdb : env.getDB p.DBName s = true)
    (hexec : env.execQuery p.DBName s p.TimeRange = some a) :
    queryShards env p cr (s :: rest) acc cache evs =
      queryShards env p cr rest (acc ++ a.List)
        (if cr then cacheAdd cache1 k (.analytics a) else cache1)
        (evs ++ [.cacheGetEv k, .getDBEv s, .lockEv s, .execEv s, .unlockEv s] ++
          (if cr then [.cacheAddEv k] else [])) := by
  simp only [queryShards, hparse, htr, hrange, if_neg, hfmt, hget, hdb, if_true, hexec, if_false]

theorem cacheGet_empty (cap : Nat) (k : String) :
    cacheGet ⟨cap, []⟩ k = (none, ⟨cap, []⟩) := rfl

theorem queryShards_atomic (l : List String) : ∀ (env : Env) (p : Params) (cr : Bool)
    (acc : List Analytic) (cache : Cache) (evs : List Event),
    (queryShards env p cr l acc cache evs).1.1 = none ∨
      (queryShards env p cr l acc cache evs).1.2 = none := by
  induction l with
  | nil => intro env p cr acc cache evs; right; rfl
  | cons s rest ih =>
    intro env p cr acc cache evs
    rw [queryShards]
    repeat' split
    all_goals first | (exact ih ..) | simp

theorem groupByShards_atomic (l : List String) : ∀ (env : Env) (p : Params) (cr : Bool)
    (acc : List (String × Aggregate)) (cache : Cache) (evs : List Event),
    (groupByShards env p cr l acc cache evs).1.1 = none ∨
      (groupByShards env p cr l acc cache evs).1.2 = none := by
  induction l with
  | nil => intro env p cr acc cache evs; right; rfl
  | cons s rest ih =>
    intro env p cr acc cache evs
    rw [groupByShards]
    repeat' split
    all_goals first | (exact ih ..) | simp

theorem seriesShards_atomic (l : List String) : ∀ (env : Env) (p : Params) (cr : Bool)
    (acc : List Interval) (cache : Cache) (evs : List Event),
    (seriesShards env p cr l acc cache evs).1.1 = none ∨
      (seriesShards env p cr l acc cache evs).1.2 = none := by
  induction l with
  | nil => intro env p cr acc cache evs; right; rfl
  | cons s rest ih =>
    intro env p cr acc cache evs
    rw [seriesShards]
    repeat' split
    all_goals first | (exact ih ..) | simp

end Sqlite

namespace Sqlite

theorem runLock_append (t1 t2 : List Event) (st : Option LockSt) :
    runLock (t1 ++ t2) st = runLock t2 (runLock t1 st) :=
  List.foldl_append ..

theorem wellLocked_append (t1 t2 : List Event) (h : wellLocked t1 = true) :
    wellLocked (t1 ++ t2) = wellLocked t2 := by
  simp only [wellLocked, decide_eq_true_eq] at h
  simp only [wellLocked, runLock_append, h]

theorem wellLocked_block (t1 t2 : List Event) (h1 : wellLocked t1 = true)
    (h2 : wellLocked t2 = true) : wellLocked (t1 ++ t2) = true := by
  rw [wellLocked_append t1 t2 h1]; exact h2

theorem wellLocked_nil : wellLocked [] = true := rfl

theorem wellLocked_cacheGet (k : String) : wellLocked [.cacheGetEv k] = true := by
  simp [wellLocked, runLock, lockStep]

theorem wellLocked_cacheAdd (k : String) : wellLocked [.cacheAddEv k] = true := by
  simp [wellLocked, runLock, lockStep]

theorem wellLocked_getDB (k s : String) :
    wellLocked [.cacheGetEv k, .getDBEv s] = true := by
  simp [wellLocked, runLock, lockStep]

theorem wellLocked_lockedExec (k s : String) :
    wellLocked [.cacheGetEv k, .getDBEv s, .lockEv s, .execEv s, .unlockEv s] = true := by
  simp [wellLocked, runLock, lockStep]

theorem wellLocked_crAdd (cr : Bool) (k : String) :
    wellLocked (if cr then [Event.cacheAddEv k] else []) = true := by
  cases cr
  · exact wellLocked_nil
  · exact wellLocked_cacheAdd k

theorem lockFree_append (t1 t2 : List Event) :
    lockFree (t1 ++ t2) = (lockFree t1 && lockFree t2) :=
  List.all_append

theorem seriesShards_wellLocked (env : Env) (p : Params) (cr : Bool)
    (hU : p.Unique = true) : ∀ (shards : List String) (acc : List Interval)
    (cache : Cache) (evs : List Event), wellLocked evs = true →
    wellLocked (seriesShards env p cr shards acc cache evs).2.2 = true := by
  intro shards
  induction shards with
  | nil => intro acc cache evs h; exact h
  | cons s rest ih =>
    intro acc cache evs h
    rw [seriesShards]
    simp only [hU, if_true]
    repeat' split
    all_goals first
      | exact h
      | (apply ih; exact h)
      | (apply ih
         exact wellLocked_block _ _ (wellLocked_block _ _ h (wellLocked_lockedExec ..)) (wellLocked_cacheAdd ..))
      | (apply ih
         rw [List.append_nil]
         exact wellLocked_block _ _ h (wellLocked_lockedExec ..))
      | exact wellLocked_block _ _ h (wellLocked_cacheGet ..)
      | (apply ih; exact wellLocked_block _ _ h (wellLocked_cacheGet ..))
      | exact wellLocked_block _ _ h (wellLocked_getDB ..)
      | exact wellLocked_block _ _ h (wellLocked_lockedExec ..)

theorem lockFree_nil : lockFree [] = true := rfl

theorem lockFree_cacheGet (k : String) : lockFree [.cacheGetEv k] = true := rfl

theorem lockFree_cacheAdd (k : String) : lockFree [.cacheAddEv k] = true := rfl

theorem lockFree_execNoLock (k s : String) :
    lockFree [.cacheGetEv k, .getDBEv s, .execEv s] = true := rfl

theorem lockFree_getDB (k s : String) : lockFree [.cacheGetEv k, .getDBEv s] = true := rfl

theorem lockFree_crAdd (cr : Bool) (k : String) :
    lockFree (if cr then [Event.cacheAddEv k] else []) = true := by
  cases cr <;> rfl

theorem lockFree_block (t1 t2 : List Event) (h1 : lockFree t1 = true)
    (h2 : lockFree t2 = true) : lockFree (t1 ++ t2) = true := by
  rw [lockFree_append, h1, h2]; rfl

theorem seriesShards_lockFree (env : Env) (p : Params) (cr : Bool)
    (hU : p.Unique = false) : ∀ (shards : List String) (acc : List Interval)
    (cache : Cache) (evs : List Event), lockFree evs = true →
    lockFree (seriesShards env p cr shards acc cache evs).2.2 = true := by
  intro shards
  induction shards with
  | nil => intro acc cache evs h; exact h
  | cons s rest ih =>
    intro acc cache evs h
    rw [seriesShards]
    simp only [hU, Bool.false_eq_true, if_false]
    repeat' split
    all_goals first
      | exact h
      | (apply ih; exact h)
      | (apply ih
         exact lockFree_block _ _ (lockFree_block _ _ h (lockFree_execNoLock ..)) (lockFree_cacheAdd ..))
      | (apply ih
         rw [List.append_nil]
         exact lockFree_block _ _ h (lockFree_execNoLock ..))
      | exact lockFree_block _ _ h (lockFree_cacheGet ..)
      | (apply ih; exact lockFree_block _ _ h (lockFree_cacheGet ..))
      | exact lockFree_block _ _ h (lockFree_getDB ..)
      | exact lockFree_block _ _ h (lockFree_execNoLock ..)

end Sqlite

namespace Sqlite

def sumTotals (l : List Aggregate) (id : String) : Int :=
  ((l.filter (fun a => a.Id = id)).map (fun a => a.Total)).sum

def sumUniques (l : List Aggregate) (id : String) : Int :=
  ((l.filter (fun a => a.Id = id)).map (fun a => a.Unique)).sum

theorem lookupAgg_setAgg (m : List (String × Aggregate)) (k : String) (v : Aggregate)
    (id : String) :
    lookupAgg (setAgg m k v) id = if k = id then some v else lookupAgg m id := by
  induction m with
  | nil => simp [setAgg, lookupAgg]
  | cons p rest ih =>
    obtain ⟨k1, v1⟩ := p
    by_cases h1 : k1 = k
    · subst h1
      by_cases h2 : k1 = id <;> simp [setAgg, lookupAgg, h2]
    · by_cases h2 : k1 = id
      · subst h2
        have : ¬ k = k1 := fun e => h1 e.symm
        simp [setAgg, lookupAgg, h1, this]
      · simp [setAgg, lookupAgg, h1, h2, ih]

theorem lookupAgg_mergeAggregate (m : List (String × Aggregate)) (a : Aggregate)
    (id : String) :
    lookupAgg (mergeAggregate m a) id =
      if a.Id = id then
        match lookupAgg m a.Id with
        | some t => some ⟨t.Id, t.Total + a.Total, t.Unique + a.Unique⟩
        | none => some a
      else lookupAgg m id := by
  unfold mergeAggregate
  cases h : lookupAgg m a.Id <;> simp [lookupAgg_setAgg, h]

theorem lookupAgg_foldl_merge (l : List Aggregate) : ∀ (m : List (String × Aggregate))
    (id : String),
    lookupAgg (l.foldl mergeAggregate m) id =
      match lookupAgg m id with
      | some t => some ⟨t.Id, t.Total + sumTotals l id, t.Unique + sumUniques l id⟩
      | none =>
        if l.filter (fun a => a.Id = id) = [] then none
        else some ⟨id, sumTotals l id, sumUniques l id⟩ := by
  induction l with
  | nil =>
    intro m id
    cases h : lookupAgg m id <;> simp [sumTotals, sumUniques, h]
  | cons a l ih =>
    intro m id
    rw [List.foldl_cons, ih, lookupAgg_mergeAggregate]
    by_cases hid : a.Id = id
    · subst hid
      simp only [if_pos rfl]
      cases h : lookupAgg m a.Id with
      | some t =>
        simp [h, sumTotals, sumUniques, List.filter_cons, add_assoc]
      | none =>
        simp [h, sumTotals, sumUniques, List.filter_cons]
    · have hfilter : (a :: l).filter (fun x => x.Id = id) = l.filter (fun x => x.Id = id) := by
        simp [List.filter_cons, hid]
      have hT : sumTotals (a :: l) id = sumTotals l id := by simp [sumTotals, hfilter]
      have hU : sumUniques (a :: l) id = sumUniques l id := by simp [sumUniques, hfilter]
      simp only [if_neg hid, hfilter, hT, hU]

theorem mergeShards_flatten (L : List (List Aggregate)) : ∀ (m : List (String × Aggregate)),
    L.foldl (fun m l => l.foldl mergeAggregate m) m = L.flatten.foldl mergeAggregate m := by
  induction L with
  | nil => intro m; rfl
  | cons l L ih => intro m; simp [List.flatten_cons, List.foldl_append, ih]

theorem hasKey_del_self (q : Values) (k : String) :
    Values.hasKey (Values.del q k) k = false := by
  rw [Bool.eq_false_iff]
  simp only [ne_eq, Values.hasKey, Values.del, List.any_eq_true, List.mem_filter,
    decide_eq_true_eq, not_exists, not_and]
  intro p hp hk
  exact absurd hk hp.2

theorem hasKey_del_ne (q : Values) (k k1 : String) (h : ¬ k = k1) :
    Values.hasKey (Values.del q k) k1 = Values.hasKey q k1 := by
  rw [Bool.eq_iff_iff]
  simp only [Values.hasKey, Values.del, List.any_eq_true, List.mem_filter, decide_eq_true_eq]
  constructor
  · rintro ⟨p, ⟨hm, _⟩, hk⟩
    exact ⟨p, hm, hk⟩
  · rintro ⟨p, hm, hk⟩
    refine ⟨p, ⟨hm, ?_⟩, hk⟩
    intro e
    exact h (by rw [← e]; exact hk)

theorem hasKey_map_addval (q : Values) (k v k1 : String) :
    Values.hasKey (q.map (fun p => if p.1 = k then (p.1, p.2 ++ [v]) else p)) k1 =
      Values.hasKey q k1 := by
  rw [Bool.eq_iff_iff]
  simp only [Values.hasKey, List.any_eq_true, List.mem_map, decide_eq_true_eq]
  constructor
  · rintro ⟨p, ⟨p0, hm, he⟩, hk⟩
    refine ⟨p0, hm, ?_⟩
    have : p.1 = p0.1 := by rw [← he]; by_cases hc : p0.1 = k <;> simp [hc]
    rw [← this]; exact hk
  · rintro ⟨p, hm, hk⟩
    refine ⟨if p.1 = k then (p.1, p.2 ++ [v]) else p, ⟨p, hm, rfl⟩, ?_⟩
    by_cases hc : p.1 = k
    · rw [if_pos hc]; exact hk
    · rw [if_neg hc]; exact hk

theorem hasKey_add_ne (q : Values) (k v k1 : String) (h : ¬ k = k1) :
    Values.hasKey (Values.add q k v) k1 = Values.hasKey q k1 := by
  unfold Values.add
  split
  · exact hasKey_map_addval q k v k1
  · simp [Values.hasKey, List.any_append, h]

end Sqlite


namespace Sqlite

def nowOct2026 : GoTime := ⟨2026, 10, 0⟩

/-- Modelled from the spec: the per-shard SQL executor is a black-box
collaborator whose Query shape returns the rows currently stored in the
queried shard ("owns exactly the rows whose timestamp falls in that
month"); `store` stands for the on-disk contents, one row list per shard
label.  The dataset here has the single shard "2026-10" and the clock
reads October 2026, so that shard is the current month's shard. -/
def storeEnv (store : String → List Analytic) : Env :=
  ⟨some true, some ["2026-10"], fun _ _ => true, nowOct2026,
   fun _ shard _ => some ⟨store shard⟩,
   fun _ _ _ _ => none, fun _ _ _ _ => none, fun _ _ _ _ => none, fun _ _ _ _ => none,
   fun _ _ _ => true⟩

/-- Modelled from the spec: a successful Insert makes the record part of
the shard named by its own timestamp ("timestamp alone determines shard
assignment on write"), leaving every other shard unchanged. -/
def insertToStore (store : String → List Analytic) (a : Analytic) :
    String → List Analytic :=
  fun shard => if shard = timeToShardName a.Time then store shard ++ [a] else store shard

def cachedURL : URL := ⟨"/analytics", [("cache", ["true"])]⟩

def cachedParams : Params := ⟨"site", cachedURL, none, "", "", false⟩

def keyOct : String := "/analytics?cache=true&shard=202610"

theorem queryOct_first (store : String → List Analytic) :
    Query (storeEnv store) cachedParams ⟨10, []⟩ =
      ((some ⟨store "2026-10"⟩, none),
        ⟨10, [(keyOct, .analytics ⟨store "2026-10"⟩)]⟩,
        [.cacheGetEv keyOct, .getDBEv "2026-10", .lockEv "2026-10", .execEv "2026-10",
          .unlockEv "2026-10", .cacheAddEv keyOct]) := by
  have hQ : Query (storeEnv store) cachedParams ⟨10, []⟩ =
      queryShards (storeEnv store) cachedParams true ["2026-10"] [] ⟨10, []⟩ [] := rfl
  have hnow : (storeEnv store).now = nowOct2026 := rfl
  have hfmt : formatURLForCache cachedParams.URL 202610 0 999999 (storeEnv store).now =
      some keyOct := by rw [hnow]; rfl
  rw [hQ, queryShards_miss (storeEnv store) cachedParams true "2026-10" [] [] ⟨10, []⟩
    ⟨10, []⟩ [] 202610 0 999999 keyOct ⟨store "2026-10"⟩ rfl rfl (by decide) hfmt
    (cacheGet_empty 10 keyOct) rfl rfl, queryShards_nil]
  simp [cacheAdd]

theorem queryOct_cachedHit (store : String → List Analytic) (a : Analytics) :
    Query (storeEnv store) cachedParams ⟨10, [(keyOct, .analytics a)]⟩ =
      ((some ⟨a.List⟩, none), ⟨10, [(keyOct, .analytics a)]⟩, [.cacheGetEv keyOct]) := by
  have hQ : Query (storeEnv store) cachedParams ⟨10, [(keyOct, .analytics a)]⟩ =
      queryShards (storeEnv store) cachedParams true ["2026-10"] [] ⟨10, [(keyOct, .analytics a)]⟩ [] := rfl
  have hget : cacheGet ⟨10, [(keyOct, .analytics a)]⟩ keyOct =
      (some (.analytics a), ⟨10, [(keyOct, .analytics a)]⟩) := rfl
  have hnow : (storeEnv store).now = nowOct2026 := rfl
  have hfmt : formatURLForCache cachedParams.URL 202610 0 999999 (storeEnv store).now =
      some keyOct := by rw [hnow]; rfl
  rw [hQ, queryShards_hit (storeEnv store) cachedParams true "2026-10" []
    [] ⟨10, [(keyOct, .analytics a)]⟩ ⟨10, [(keyOct, .analytics a)]⟩ [] 202610 0 999999
    keyOct a rfl rfl (by decide) hfmt hget, queryShards_nil]
  simp

end Sqlite

namespace Sqlite

/-- C1 counterexample: at the concrete request "?cache=true" with
shard_int = now_int = 202610 (the current month's shard, October 2026),
formatURLForCache keeps the "cache" parameter in the normalized key — the
claim says the key never carries "cache" for the current month's shard. -/
theorem claim1_cache_key_counterexample :
    formatValuesForCache [("cache", ["true"])] 202610 0 999999 nowOct2026 =
      some [("cache", ["true"]), ("shard", ["202610"])] ∧
    shardNameToInt (timeToShardName nowOct2026) = some 202610 ∧
    Values.hasKey [("cache", ["true"]), ("shard", ["202610"])] "cache" = true ∧
    formatURLForCache cachedURL 202610 0 999999 nowOct2026 = some keyOct :=
  ⟨rfl, rfl, rfl, rfl⟩

/-- C1 amended: formatURLForCache removes the "cache" query parameter from
the normalized key exactly when shard_int < now_int (months strictly before
the current month); for the current month's shard (shard_int = now_int) the
key keeps whatever "cache" parameter the request carried. -/
theorem claim1_cache_key_amended (q : Values) (shardInt startInt endInt nowInt : Int)
    (now : GoTime) (hnow : shardNameToInt (timeToShardName now) = some nowInt) :
    (formatValuesForCache q shardInt startInt endInt now).map
        (fun v => Values.hasKey v "cache") =
      some (if shardInt < nowInt then false else Values.hasKey q "cache") := by
  unfold formatValuesForCache
  rw [hnow]
  by_cases h1 : startInt < shardInt <;> by_cases h2 : endInt > shardInt <;>
    by_cases hc : shardInt < nowInt <;>
    simp [h1, h2, hc, hasKey_add_ne, hasKey_del_self, hasKey_del_ne]

/-- C1 amended witness: with the clock at October 2026 (now_int 202610),
the key for the September shard (202609) drops "cache" while the key for
the October shard (202610) keeps it. -/
theorem claim1_cache_key_amended_witness :
    (formatValuesForCache [("cache", ["yes"])] 202609 0 999999 nowOct2026).map
        (fun v => Values.hasKey v "cache") = some false ∧
    (formatValuesForCache [("cache", ["yes"])] 202610 0 999999 nowOct2026).map
        (fun v => Values.hasKey v "cache") = some true := by
  constructor
  · have h := claim1_cache_key_amended [("cache", ["yes"])] 202609 0 999999 202610
      nowOct2026 rfl
    simpa using h
  · have h := claim1_cache_key_amended [("cache", ["yes"])] 202610 0 999999 202610
      nowOct2026 rfl
    simpa using h

def recOct : Analytic := ⟨⟨2026, 10, 8⟩, "pageview"⟩

/-- C2 counterexample: dataset with the single current-month shard
"2026-10" (clock at October 2026), request carrying the "cache" marker.
The first query caches the empty shard result; Insert then succeeds and the
store contains the new record; the identical second query still returns the
cached pre-insert snapshot, so it does not reflect the inserted record. -/
theorem claim2_stale_counterexample :
    (Query (storeEnv (fun _ => [])) cachedParams ⟨10, []⟩).1 = (some ⟨[]⟩, none) ∧
    Insert (storeEnv (fun _ => [])) cachedParams recOct = (none,
      [.getDBEv "2026-10", .lockEv "2026-10", .execEv "2026-10", .unlockEv "2026-10"]) ∧
    insertToStore (fun _ => []) recOct "2026-10" = [recOct] ∧
    (Query (storeEnv (insertToStore (fun _ => []) recOct)) cachedParams
        (Query (storeEnv (fun _ => [])) cachedParams ⟨10, []⟩).2.1).1 = (some ⟨[]⟩, none) ∧
    recOct ∉ ([] : List Analytic) :=
  ⟨rfl, rfl, rfl, rfl, by simp⟩

/-- C2 amended: against the current month's shard, a request with the
"cache" marker stores its result under a key the identical request
reproduces, so the second of two identical cached requests returns the
snapshot taken before the intervening insert — for every store contents and
every record inserted into the current shard, the second result equals the
first (the pre-insert rows) even though the executor would now return the
appended rows. -/
theorem claim2_stale_amended (store : String → List Analytic) (d : Nat) (payload : String) :
    (Query (storeEnv store) cachedParams ⟨10, []⟩).1 = (some ⟨store "2026-10"⟩, none) ∧
    (Query (storeEnv (insertToStore store ⟨⟨2026, 10, d⟩, payload⟩)) cachedParams
        (Query (storeEnv store) cachedParams ⟨10, []⟩).2.1).1 =
      (some ⟨store "2026-10"⟩, none) ∧
    insertToStore store ⟨⟨2026, 10, d⟩, payload⟩ "2026-10" =
      store "2026-10" ++ [⟨⟨2026, 10, d⟩, payload⟩] ∧
    (storeEnv (insertToStore store ⟨⟨2026, 10, d⟩, payload⟩)).execQuery
        cachedParams.DBName "2026-10" cachedParams.TimeRange =
      some ⟨store "2026-10" ++ [⟨⟨2026, 10, d⟩, payload⟩]⟩ ∧
    Insert (storeEnv store) cachedParams ⟨⟨2026, 10, d⟩, payload⟩ = (none,
      [.getDBEv "2026-10", .lockEv "2026-10", .execEv "2026-10", .unlockEv "2026-10"]) := by
  have hrest : timeToShardName (⟨2026, 10, d⟩ : GoTime) =
      timeToShardName (⟨2026, 10, 0⟩ : GoTime) := rfl
  have ht : timeToShardName (⟨2026, 10, d⟩ : GoTime) = "2026-10" := by
    rw [hrest]
    rfl
  have hstore : insertToStore store ⟨⟨2026, 10, d⟩, payload⟩ "2026-10" =
      store "2026-10" ++ [⟨⟨2026, 10, d⟩, payload⟩] := by
    simp [insertToStore, ht]
  have hexec : (storeEnv (insertToStore store ⟨⟨2026, 10, d⟩, payload⟩)).execQuery
      cachedParams.DBName "2026-10" cachedParams.TimeRange =
      some ⟨insertToStore store ⟨⟨2026, 10, d⟩, payload⟩ "2026-10"⟩ := rfl
  refine ⟨?_, ?_, hstore, ?_, ?_⟩
  · rw [queryOct_first]
  · rw [queryOct_first]
    rw [queryOct_cachedHit]
  · rw [hexec, hstore]
  · simp [Insert, storeEnv, ht]

def anyURL : URL := ⟨"/a", []⟩

def unreadableEnv : Env :=
  ⟨some true, none, fun _ _ => true, nowOct2026,
   fun _ _ _ => some ⟨[]⟩, fun _ _ _ _ => none, fun _ _ _ _ => none,
   fun _ _ _ _ => none, fun _ _ _ _ => none, fun _ _ _ => true⟩

def plainParams3 : Params := ⟨"site", anyURL, none, "", "", false⟩

/-- C3 counterexample: with the dataset existing but its directory
unreadable (the ReadDir call fails), Query succeeds with an empty result
and no InternalError — the claim says the operation must fail with
InternalError rather than report an empty shard list. -/
theorem claim3_list_shards_counterexample :
    Query unreadableEnv plainParams3 ⟨10, []⟩ = ((some ⟨[]⟩, none), ⟨10, []⟩, []) ∧
    (Query unreadableEnv plainParams3 ⟨10, []⟩).1.2 ≠ some Err.InternalError :=
  ⟨rfl, by decide⟩

/-- C3 amended: listShards returns the directory entries in order and the
empty list when there are none, but a ReadDir failure also yields the empty
list, so an unreadable directory makes the enclosing operation succeed with
an empty result instead of failing with InternalError. -/
theorem claim3_list_shards_amended (l : List String)
    (g : String → String → Bool) (now : GoTime)
    (eQ : String → String → Option TimeRange → Option Analytics)
    (eG eGU : String → String → String → Option TimeRange → Option Aggregates)
    (eS eSU : String → String → String → Option TimeRange → Option Intervals)
    (eI : String → String → Analytic → Bool)
    (p : Params) (cache : Cache) :
    listShards (some l) = l ∧ listShards none = [] ∧
    Query ⟨some true, none, g, now, eQ, eG, eGU, eS, eSU, eI⟩ p cache =
      ((some ⟨[]⟩, none), cache, []) :=
  ⟨rfl, rfl, rfl⟩

end Sqlite

namespace Sqlite

/-- C5: two requests that differ only in the value of their "start" query
parameter, both of whose resolved start integers are strictly below the
shard's integer (end bound and clock held equal), produce the identical
cache key for that shard. -/
theorem claim5_start_collapse (base : String) (q : Values) (s1 s2 : List String)
    (shardInt startInt1 startInt2 endInt : Int) (now : GoTime)
    (h1 : startInt1 < shardInt) (h2 : startInt2 < shardInt) :
    formatURLForCache ⟨base, q ++ [("start", s1)]⟩ shardInt startInt1 endInt now =
      formatURLForCache ⟨base, q ++ [("start", s2)]⟩ shardInt startInt2 endInt now := by
  have e1 : Values.del (q ++ [("start", s1)]) "start" = Values.del q "start" := by
    simp [Values.del, List.filter_append]
  have e2 : Values.del (q ++ [("start", s2)]) "start" = Values.del q "start" := by
    simp [Values.del, List.filter_append]
  have hu : urlString ⟨base, q ++ [("start", s1)]⟩ = urlString ⟨base, q ++ [("start", s2)]⟩ :=
    funext (fun v => rfl)
  simp only [formatURLForCache, formatValuesForCache, if_pos h1, if_pos h2, e1, e2, hu]

/-- C5 witness: start=2015-01 and start=2015-03 key identically against
shard 2015-06 when both starts lie before the shard. -/
theorem claim5_start_collapse_witness :
    (201501 : Int) < 201506 ∧ (201503 : Int) < 201506 ∧
    formatURLForCache ⟨"/a", [("cache", ["y"]), ("start", ["2015-01"])]⟩
        201506 201501 999999 ⟨2015, 7, 0⟩ =
      formatURLForCache ⟨"/a", [("cache", ["y"]), ("start", ["2015-03"])]⟩
        201506 201503 999999 ⟨2015, 7, 0⟩ :=
  ⟨by decide, by decide,
    claim5_start_collapse "/a" [("cache", ["y"])] ["2015-01"] ["2015-03"]
      201506 201501 201503 999999 ⟨2015, 7, 0⟩ (by decide) (by decide)⟩

/-- C6: the GroupBy merge — folding per-shard aggregate lists into the
id-keyed map, summing Total and Unique on repeated ids — yields the same
final map (as a function from group id to aggregate) for any permutation
of the shard lists; only the output iteration order is unspecified. -/
theorem claim6_groupby_merge_perm (shards1 shards2 : List (List Aggregate))
    (h : shards1.Perm shards2) (id : String) :
    lookupAgg (mergeShards shards1) id = lookupAgg (mergeShards shards2) id := by
  unfold mergeShards
  rw [mergeShards_flatten, mergeShards_flatten, lookupAgg_foldl_merge, lookupAgg_foldl_merge]
  simp only [lookupAgg]
  have hperm := (h.flatten).filter (fun a => decide (a.Id = id))
  by_cases hc : shards1.flatten.filter (fun a => decide (a.Id = id)) = []
  · have hc2 : shards2.flatten.filter (fun a => decide (a.Id = id)) = [] := by
      rw [hc] at hperm
      exact hperm.symm.eq_nil
    rw [if_pos hc, if_pos hc2]
  · have hc2 : ¬ shards2.flatten.filter (fun a => decide (a.Id = id)) = [] := by
      intro e
      rw [e] at hperm
      exact hc hperm.eq_nil
    have hT : sumTotals shards1.flatten id = sumTotals shards2.flatten id := by
      unfold sumTotals
      exact (hperm.map (fun a => a.Total)).sum_eq
    have hU : sumUniques shards1.flatten id = sumUniques shards2.flatten id := by
      unfold sumUniques
      exact (hperm.map (fun a => a.Unique)).sum_eq
    rw [if_neg hc, if_neg hc2, hT, hU]

/-- C6 witness: swapping two concrete shard lists leaves the merged
aggregate for group id "a" unchanged. -/
theorem claim6_groupby_merge_perm_witness :
    lookupAgg (mergeShards [[⟨"a", 1, 1⟩], [⟨"a", 2, 0⟩, ⟨"b", 5, 4⟩]]) "a" =
      lookupAgg (mergeShards [[⟨"a", 2, 0⟩, ⟨"b", 5, 4⟩], [⟨"a", 1, 1⟩]]) "a" :=
  claim6_groupby_merge_perm _ _ (List.Perm.swap _ _ _) "a"

/-- C7: whenever Query, GroupBy or Series returns with an error, the
returned result value is nil — partial per-shard results accumulated before
the failing shard are never returned alongside an error. -/
theorem claim7_error_atomicity (env : Env) (p : Params) (cache : Cache) :
    ((Query env p cache).1.1 = none ∨ (Query env p cache).1.2 = none) ∧
    ((GroupBy env p cache).1.1 = none ∨ (GroupBy env p cache).1.2 = none) ∧
    ((Series env p cache).1.1 = none ∨ (Series env p cache).1.2 = none) := by
  refine ⟨?_, ?_, ?_⟩
  · unfold Query
    split
    · simp
    · simp
    · exact queryShards_atomic ..
  · unfold GroupBy
    split
    · simp
    · simp
    · exact groupByShards_atomic ..
  · unfold Series
    split
    · simp
    · simp
    · exact seriesShards_atomic ..

end Sqlite

namespace Sqlite

/-- C8: Insert's target shard label is computed solely from the record's
own timestamp formatted as "YYYY-MM" — two params differing in URL, time
range, property, interval and uniqueness (same dataset name) give identical
behavior — the executor call sits between lock() and unlock() of that
shard's connection (the trace is getDB, lock, execute, unlock and passes
the lock-discipline automaton), an executor failure is reported as exactly
InsertFailed and a connection-acquisition failure as InternalError. -/
theorem claim8_insert_routing (env : Env) (db : String) (u1 u2 : URL)
    (t1 t2 : Option TimeRange) (pr1 pr2 iv1 iv2 : String) (un1 un2 : Bool) (a : Analytic) :
    Insert env ⟨db, u1, t1, pr1, iv1, un1⟩ a = Insert env ⟨db, u2, t2, pr2, iv2, un2⟩ a ∧
    Insert env ⟨db, u1, t1, pr1, iv1, un1⟩ a =
      (if env.getDB db (timeToShardName a.Time) then
        ((if env.execInsert db (timeToShardName a.Time) a then none
          else some Err.InsertFailed),
          [Event.getDBEv (timeToShardName a.Time), Event.lockEv (timeToShardName a.Time),
           Event.execEv (timeToShardName a.Time), Event.unlockEv (timeToShardName a.Time)])
      else (some Err.InternalError, [Event.getDBEv (timeToShardName a.Time)])) ∧
    wellLocked (Insert env ⟨db, u1, t1, pr1, iv1, un1⟩ a).2 = true := by
  refine ⟨rfl, ?_, ?_⟩
  · unfold Insert
    by_cases hg : env.getDB db (timeToShardName a.Time)
    · rw [if_pos hg, if_pos hg]
      by_cases he : env.execInsert db (timeToShardName a.Time) a
      · rw [if_pos he, if_pos he]
      · rw [if_neg he, if_neg he]
    · rw [if_neg hg, if_neg hg]
  · unfold Insert
    by_cases hg : env.getDB db (timeToShardName a.Time)
    · rw [if_pos hg]
      by_cases he : env.execInsert db (timeToShardName a.Time) a
      · rw [if_pos he]
        simp [wellLocked, runLock, lockStep]
      · rw [if_neg he]
        simp [wellLocked, runLock, lockStep]
    · rw [if_neg hg]
      simp [wellLocked, runLock, lockStep]

/-- C9: in every Series invocation, the unique path executes each per-shard
query strictly between lock() and unlock() of the shard connection (the
whole trace passes the lock-discipline automaton), while the non-unique
path acquires no shard lock at all (the trace contains no lock or unlock
event). -/
theorem claim9_series_locking (env : Env) (p : Params) (cache : Cache) :
    (p.Unique = true → wellLocked (Series env p cache).2.2 = true) ∧
    (p.Unique = false → lockFree (Series env p cache).2.2 = true) := by
  constructor
  · intro hU
    unfold Series
    split
    · exact wellLocked_nil
    · exact wellLocked_nil
    · exact seriesShards_wellLocked env p _ hU _ _ _ _ wellLocked_nil
  · intro hU
    unfold Series
    split
    · exact lockFree_nil
    · exact lockFree_nil
    · exact seriesShards_lockFree env p _ hU _ _ _ _ lockFree_nil

def seriesStoreEnv : Env :=
  ⟨some true, some ["2026-10"], fun _ _ => true, nowOct2026,
   fun _ _ _ => none, fun _ _ _ _ => none, fun _ _ _ _ => none,
   fun _ _ _ _ => some ⟨[⟨"bucket"⟩]⟩, fun _ _ _ _ => some ⟨[⟨"bucket"⟩]⟩,
   fun _ _ _ => true⟩

def uniqSeriesParams : Params := ⟨"site", anyURL, none, "", "month", true⟩

def plainSeriesParams : Params := ⟨"site", anyURL, none, "", "month", false⟩

/-- C9 witness: a concrete unique run is well locked, a concrete non-unique
run acquires no lock, and the non-unique trace does contain an executor
event, showing the executor truly runs without the lock. -/
theorem claim9_series_locking_witness :
    wellLocked (Series seriesStoreEnv uniqSeriesParams ⟨10, []⟩).2.2 = true ∧
    lockFree (Series seriesStoreEnv plainSeriesParams ⟨10, []⟩).2.2 = true ∧
    (Series seriesStoreEnv plainSeriesParams ⟨10, []⟩).2.2 =
      [.cacheGetEv "/a?shard=202610", .getDBEv "2026-10", .execEv "2026-10"] ∧
    (Series seriesStoreEnv uniqSeriesParams ⟨10, []⟩).2.2 =
      [.cacheGetEv "/a?shard=202610", .getDBEv "2026-10", .lockEv "2026-10",
       .execEv "2026-10", .unlockEv "2026-10"] :=
  ⟨(claim9_series_locking seriesStoreEnv uniqSeriesParams ⟨10, []⟩).1 rfl,
   (claim9_series_locking seriesStoreEnv plainSeriesParams ⟨10, []⟩).2 rfl,
   rfl, rfl⟩

/-- C10: Insert performs no dataset-existence check — its behavior is
unchanged under arbitrary replacement of the existence and directory
oracles (and of everything else but the connection manager and insert
executor), so it proceeds even for a dataset with no existing directory —
and its only outcomes are success, InternalError and InsertFailed; it can
never return InvalidDatabaseName. -/
theorem claim10_insert_no_existence_check (dbE1 dbE2 : Option Bool)
    (dr1 dr2 : Option (List String)) (g : String → String → Bool) (now1 now2 : GoTime)
    (q1 q2 : String → String → Option TimeRange → Option Analytics)
    (gb1 gb2 gbu1 gbu2 : String → String → String → Option TimeRange → Option Aggregates)
    (se1 se2 seu1 seu2 : String → String → String → Option TimeRange → Option Intervals)
    (ei : String → String → Analytic → Bool) (p : Params) (a : Analytic) :
    Insert ⟨dbE1, dr1, g, now1, q1, gb1, gbu1, se1, seu1, ei⟩ p a =
      Insert ⟨dbE2, dr2, g, now2, q2, gb2, gbu2, se2, seu2, ei⟩ p a ∧
    ((Insert ⟨dbE1, dr1, g, now1, q1, gb1, gbu1, se1, seu1, ei⟩ p a).1 = none ∨
      (Insert ⟨dbE1, dr1, g, now1, q1, gb1, gbu1, se1, seu1, ei⟩ p a).1 =
        some Err.InternalError ∨
      (Insert ⟨dbE1, dr1, g, now1, q1, gb1, gbu1, se1, seu1, ei⟩ p a).1 =
        some Err.InsertFailed) ∧
    (Insert ⟨dbE1, dr1, g, now1, q1, gb1, gbu1, se1, seu1, ei⟩ p a).1 ≠
      some Err.InvalidDatabaseName := by
  refine ⟨rfl, ?_, ?_⟩
  · unfold Insert
    by_cases hg : g p.DBName (timeToShardName a.Time)
    · show ((if g p.DBName (timeToShardName a.Time) then _ else _ :
        Option Err × List Event)).1 = none ∨ _
      rw [if_pos hg]
      by_cases he : ei p.DBName (timeToShardName a.Time) a
      · rw [if_pos he]
        left
        rfl
      · rw [if_neg he]
        right
        right
        rfl
    · show ((if g p.DBName (timeToShardName a.Time) then _ else _ :
        Option Err × List Event)).1 = none ∨ _
      rw [if_neg hg]
      right
      left
      rfl
  · unfold Insert
    by_cases hg : g p.DBName (timeToShardName a.Time)
    · rw [if_pos hg]
      by_cases he : ei p.DBName (timeToShardName a.Time) a
      · rw [if_pos he]
        simp
      · rw [if_neg he]
        simp
    · rw [if_neg hg]
      simp

end Sqlite

namespace Sqlite

/-- The shards retained by the time-range filter: those whose integer lies
inclusively between the resolved bounds (the complement of the source's
`shardInt < startInt || shardInt > endInt` skip test). -/
def keptShards (shards : List String) (ints : String → Int) (st en : Int) : List String :=
  shards.filter (fun s => decide (st ≤ ints s ∧ ints s ≤ en))

theorem enumFrom_cons_eq (n : Nat) (a : String) (l : List String) :
    List.enumFrom n (a :: l) = (n, a) :: List.enumFrom (n + 1) l := rfl

theorem queryShards_steps (env : Env) (p : Params) (st en : Int)
    (ints : String → Int) (key : String → String) (contribs : Nat → Analytics)
    (hit : Nat → Bool) (caches : Nat → Cache)
    (htr : timeRangeToInt p.TimeRange = (st, en)) :
    ∀ (shards : List String) (n : Nat) (acc : List Analytic) (evs : List Event),
    (∀ s ∈ shards, shardNameToInt s = some (ints s)) →
    (∀ s ∈ shards, st ≤ ints s ∧ ints s ≤ en →
      formatURLForCache p.URL (ints s) st en env.now = some (key s)) →
    (∀ e ∈ List.enumFrom n (keptShards shards ints st en),
      (hit e.1 = true →
        cacheGet (caches e.1) (key e.2) =
          (some (.analytics (contribs e.1)), caches (e.1 + 1))) ∧
      (hit e.1 = false →
        cacheGet (caches e.1) (key e.2) = (none, caches e.1) ∧
        env.getDB p.DBName e.2 = true ∧
        env.execQuery p.DBName e.2 p.TimeRange = some (contribs e.1) ∧
        caches (e.1 + 1) = (if cachedRequest p.URL then
          cacheAdd (caches e.1) (key e.2) (CacheVal.analytics (contribs e.1))
        else caches e.1))) →
    queryShards env p (cachedRequest p.URL) shards acc (caches n) evs =
      ((some ⟨acc ++ ((List.enumFrom n (keptShards shards ints st en)).map
          (fun e => (contribs e.1).List)).flatten⟩, none),
        caches (n + (keptShards shards ints st en).length),
        evs ++ ((List.enumFrom n (keptShards shards ints st en)).map
          (fun e =>
            if hit e.1 then [Event.cacheGetEv (key e.2)]
            else [Event.cacheGetEv (key e.2), Event.getDBEv e.2, Event.lockEv e.2,
                Event.execEv e.2, Event.unlockEv e.2] ++
              (if cachedRequest p.URL then [Event.cacheAddEv (key e.2)] else []))).flatten) := by
  intro shards
  induction shards with
  | nil =>
    intro n acc evs h1 h2 hstep
    simp [queryShards_nil, keptShards]
  | cons s rest ih =>
    intro n acc evs h1 h2 hstep
    have hs : s ∈ s :: rest := by simp
    have h1r : ∀ x ∈ rest, shardNameToInt x = some (ints x) :=
      fun x hx => h1 x (by simp [hx])
    have h2r : ∀ x ∈ rest, st ≤ ints x ∧ ints x ≤ en →
        formatURLForCache p.URL (ints x) st en env.now = some (key x) :=
      fun x hx => h2 x (by simp [hx])
    by_cases hin : st ≤ ints s ∧ ints s ≤ en
    · have hk : keptShards (s :: rest) ints st en = s :: keptShards rest ints st en := by
        simp [keptShards, List.filter_cons, hin]
      have hstepr : ∀ e ∈ List.enumFrom (n + 1) (keptShards rest ints st en),
          (hit e.1 = true →
            cacheGet (caches e.1) (key e.2) =
              (some (.analytics (contribs e.1)), caches (e.1 + 1))) ∧
          (hit e.1 = false →
            cacheGet (caches e.1) (key e.2) = (none, caches e.1) ∧
            env.getDB p.DBName e.2 = true ∧
            env.execQuery p.DBName e.2 p.TimeRange = some (contribs e.1) ∧
            caches (e.1 + 1) = (if cachedRequest p.URL then
              cacheAdd (caches e.1) (key e.2) (CacheVal.analytics (contribs e.1))
            else caches e.1)) :=
        fun e he => hstep e (by rw [hk]; exact List.mem_cons_of_mem _ he)
      have hmem : ((n, s) : Nat × String) ∈
          List.enumFrom n (keptShards (s :: rest) ints st en) := by
        rw [hk]
        exact List.mem_cons_self _ _
      rw [hk, enumFrom_cons_eq]
      have hn : (n + 1) + (keptShards rest ints st en).length =
          n + ((keptShards rest ints st en).length + 1) := by omega
      cases hhit : hit n with
      | true =>
        have h0 := (hstep (n, s) hmem).1 hhit
        rw [queryShards_hit env p (cachedRequest p.URL) s rest acc (caches n)
          (caches (n + 1)) evs (ints s) st en (key s) (contribs n)
          (h1 s hs) htr (by omega) (h2 s hs hin) h0]
        refine (ih (n + 1) _ _ h1r h2r hstepr).trans ?_
        rw [hn]
        simp [hhit, List.append_assoc]
      | false =>
        obtain ⟨hget, hdb, hexec, hcache⟩ := (hstep (n, s) hmem).2 hhit
        rw [queryShards_miss env p (cachedRequest p.URL) s rest acc (caches n)
          (caches n) evs (ints s) st en (key s) (contribs n)
          (h1 s hs) htr (by omega) (h2 s hs hin) hget hdb hexec]
        rw [← hcache]
        refine (ih (n + 1) _ _ h1r h2r hstepr).trans ?_
        rw [hn]
        simp [hhit, List.append_assoc]
    · have hk : keptShards (s :: rest) ints st en = keptShards rest ints st en := by
        simp [keptShards, List.filter_cons, hin]
      rw [queryShards_skip env p (cachedRequest p.URL) s rest acc (caches n) evs
        (ints s) st en (h1 s hs) htr (by omega)]
      rw [hk]
      exact ih n acc evs h1r h2r (fun e he => hstep e (by rw [hk]; exact he))

end Sqlite

namespace Sqlite

/-- C4: for every existing dataset whose shard labels parse and every
resolved time range (start_int, end_int), Query over any initial cache and
any request — cache-marked or not — returns exactly the concatenation, in
shard enumeration order, of the per-shard results of the shards with
start_int <= s <= end_int, where each retained shard's contribution is
either the cached value found under its key (hit) or the freshly executed
result obtained under lock and stored when the request asks for caching
(miss); there is no deduplication, the cache passes through the listed
per-shard transitions, and the event trace consists exactly of the
retained shards' blocks — a shard outside the range contributes no rows,
triggers no executor call, and causes no cache access. -/
theorem claim4_query_shape (env : Env) (p : Params) (shards : List String)
    (st en : Int) (ints : String → Int) (key : String → String)
    (contribs : Nat → Analytics) (hit : Nat → Bool) (caches : Nat → Cache)
    (hex : env.dbExists = some true)
    (hdir : env.dirRead = some shards)
    (htr : timeRangeToInt p.TimeRange = (st, en))
    (h1 : ∀ s ∈ shards, shardNameToInt s = some (ints s))
    (h2 : ∀ s ∈ shards, st ≤ ints s ∧ ints s ≤ en →
      formatURLForCache p.URL (ints s) st en env.now = some (key s))
    (hstep : ∀ e ∈ List.enumFrom 0 (keptShards shards ints st en),
      (hit e.1 = true →
        cacheGet (caches e.1) (key e.2) =
          (some (.analytics (contribs e.1)), caches (e.1 + 1))) ∧
      (hit e.1 = false →
        cacheGet (caches e.1) (key e.2) = (none, caches e.1) ∧
        env.getDB p.DBName e.2 = true ∧
        env.execQuery p.DBName e.2 p.TimeRange = some (contribs e.1) ∧
        caches (e.1 + 1) = (if cachedRequest p.URL then
          cacheAdd (caches e.1) (key e.2) (CacheVal.analytics (contribs e.1))
        else caches e.1))) :
    Query env p (caches 0) =
      ((some ⟨((List.enumFrom 0 (keptShards shards ints st en)).map
          (fun e => (contribs e.1).List)).flatten⟩, none),
        caches (keptShards shards ints st en).length,
        ((List.enumFrom 0 (keptShards shards ints st en)).map
          (fun e =>
            if hit e.1 then [Event.cacheGetEv (key e.2)]
            else [Event.cacheGetEv (key e.2), Event.getDBEv e.2, Event.lockEv e.2,
                Event.execEv e.2, Event.unlockEv e.2] ++
              (if cachedRequest p.URL then [Event.cacheAddEv (key e.2)] else []))).flatten) := by
  unfold Query
  rw [hex, hdir]
  have h := queryShards_steps env p st en ints key contribs hit caches htr shards 0 [] []
    h1 h2 hstep
  simpa [listShards] using h

def intsC4 (s : String) : Int :=
  if s = "2015-11" then 201511 else if s = "2015-12" then 201512 else 201601

def keyC4 (s : String) : String := "/a?shard=" ++ toString (intsC4 s)

def rowCached : Analytic := ⟨⟨2015, 12, 3⟩, "cached-row"⟩

def rowFresh : Analytic := ⟨⟨2016, 1, 4⟩, "fresh-row"⟩

def rowExec : Analytic := ⟨⟨2015, 12, 5⟩, "executor-row"⟩

def envC4 : Env :=
  ⟨some true, some ["2015-11", "2015-12", "2016-01"], fun _ _ => true, nowOct2026,
   fun _ shard _ => if shard = "2016-01" then some ⟨[rowFresh]⟩ else some ⟨[rowExec]⟩,
   fun _ _ _ _ => none, fun _ _ _ _ => none, fun _ _ _ _ => none, fun _ _ _ _ => none,
   fun _ _ _ => true⟩

def paramsC4 : Params :=
  ⟨"site", ⟨"/a", [("cache", ["true"])]⟩, some ⟨⟨2015, 12, 1⟩, zeroTime⟩, "", "", false⟩

def contribsC4 : Nat → Analytics := fun i => if i = 0 then ⟨[rowCached]⟩ else ⟨[rowFresh]⟩

def hitC4 : Nat → Bool := fun i => i == 0

def cachesC4 : Nat → Cache := fun i =>
  if i ≤ 1 then ⟨10, [("/a?shard=201512", .analytics ⟨[rowCached]⟩)]⟩
  else ⟨10, [("/a?shard=201601", .analytics ⟨[rowFresh]⟩),
             ("/a?shard=201512", .analytics ⟨[rowCached]⟩)]⟩

/-- C4 witness: shards 2015-11, 2015-12, 2016-01 with range [2015-12, end
default] and a cache-marked request against a warm cache — 2015-11 is
excluded, 2015-12 is answered from the cache (the executor would have
returned a different row), 2016-01 is freshly executed under lock and then
stored; the result is the in-order concatenation of the cached and the
fresh row. -/
theorem claim4_query_shape_witness :
    Query envC4 paramsC4 (cachesC4 0) =
      ((some ⟨((List.enumFrom 0
            (keptShards ["2015-11", "2015-12", "2016-01"] intsC4 201512 999999)).map
          (fun e => (contribsC4 e.1).List)).flatten⟩, none),
        cachesC4 (keptShards ["2015-11", "2015-12", "2016-01"] intsC4 201512 999999).length,
        ((List.enumFrom 0
            (keptShards ["2015-11", "2015-12", "2016-01"] intsC4 201512 999999)).map
          (fun e =>
            if hitC4 e.1 then [Event.cacheGetEv (keyC4 e.2)]
            else [Event.cacheGetEv (keyC4 e.2), Event.getDBEv e.2, Event.lockEv e.2,
                Event.execEv e.2, Event.unlockEv e.2] ++
              (if cachedRequest paramsC4.URL then [Event.cacheAddEv (keyC4 e.2)]
               else []))).flatten) ∧
    (Query envC4 paramsC4 (cachesC4 0)).1.1 = some ⟨[rowCached, rowFresh]⟩ ∧
    envC4.execQuery paramsC4.DBName "2015-12" paramsC4.TimeRange = some ⟨[rowExec]⟩ :=
  ⟨claim4_query_shape envC4 paramsC4 ["2015-11", "2015-12", "2016-01"] 201512 999999
      intsC4 keyC4 contribsC4 hitC4 cachesC4 rfl rfl (by decide) (by decide) (by decide)
      (by decide),
   by decide, by decide⟩

end Sqlite
